import Mathlib

/-
Verification of the data-source profiling pipeline.

Shallow embedding of the core algorithms of the repository:
- the irregular-column-name heuristic and schema extraction of
  `StructuredDataProfiler` (`_data_profiler_factory.py`),
- the per-table relational introspection loop of
  `RelationalDatabaseProfiler._read_data`,
- the merge step `StructuredDataProfiler._wrap_data_response`,
- the top-level lifecycle `BaseDataProfiler.generate_profile`,
- the budget truncation of `TextPostHook.truncate_and_save_response`
  (`text_post_hook.py`),
- name derivation and sanitization of `DataSourceManager`
  (`data_source.py`).

Python strings are modelled as `String` / `List Char`; machine floats in
the source appear only in the two ratio comparisons (`>= 0.5` and
`* 0.85`), which are modelled exactly over `ℚ` / integer arithmetic: for
the magnitudes reachable here the float computations agree with the exact
ones. Python exceptions are modelled with `Option` / `Except`.
-/

set_option autoImplicit false

/-! ## Basic string helpers (Python `str` operations over `List Char`) -/

/-- Boolean test that `pat` is an initial run of `s` (Python `str.startswith`). -/
def leadsWith : List Char → List Char → Bool
  | [], _ => true
  | _ :: _, [] => false
  | p :: ps, c :: cs => (p = c) && leadsWith ps cs

/-- Boolean substring test (Python `pat in s`). -/
def containsSeq (pat : List Char) : List Char → Bool
  | [] => leadsWith pat []
  | c :: cs => leadsWith pat (c :: cs) || containsSeq pat cs

/-- Python `s.split(sep, 1)` when `sep` occurs in `s`: the text before the
first occurrence and the text after it. `none` when `sep` does not occur. -/
def splitFirst (sep : List Char) : List Char → Option (List Char × List Char)
  | [] => if leadsWith sep [] then some ([], []) else none
  | c :: cs =>
    if leadsWith sep (c :: cs) then some ([], List.drop sep.length (c :: cs))
    else
      match splitFirst sep cs with
      | some (pre, post) => some (c :: pre, post)
      | none => none

/-- Python `s.split(sep)` for a single-character separator. -/
def splitAllCh (sep : Char) : List Char → List (List Char)
  | [] => [[]]
  | c :: cs =>
    if c = sep then [] :: splitAllCh sep cs
    else
      match splitAllCh sep cs with
      | [] => [[c]]
      | p :: ps => (c :: p) :: ps

/-- Python slice `s[:k]`, including the negative-index convention. -/
def pyTake (s : String) (k : Int) : String :=
  if 0 ≤ k then ⟨s.data.take k.toNat⟩
  else ⟨s.data.take ((s.length : Int) + k).toNat⟩

/-- ASCII uppercase of a string (Python `str.upper` on the ASCII names used here). -/
def upperStr (s : String) : String := ⟨s.data.map Char.toUpper⟩

/-! ## Irregularity predicate (`StructuredDataProfiler.is_irregular`)

Source (`_data_profiler_factory.py`, lines 212-226):
the ratio of column names starting with "Unnamed" to the number of
columns, compared with `>= 0.5`.  On an empty column list the Python code
divides by `len(cols) = 0` and raises `ZeroDivisionError`; this is
modelled by returning `none`. -/

/-- Test that a column name begins with the placeholder marker. -/
def startsWithUnnamed (c : String) : Bool := leadsWith "Unnamed".data c.data

/-- Number of columns whose name begins with "Unnamed". -/
def countUnnamed (cols : List String) : Nat := cols.countP startsWithUnnamed

/-- Model of `StructuredDataProfiler.is_irregular`: `none` models the
`ZeroDivisionError` on an empty column list. -/
def is_irregular (cols : List String) : Option Bool :=
  if cols.length = 0 then none
  else some (decide ((countUnnamed cols : ℚ) / (cols.length : ℚ) ≥ (1 : ℚ) / 2))

/-! ## Sample selection (`StructuredDataProfiler._extract_schema_from_table`)

Source lines 242-270: per column, deduplicate the values (first
occurrence kept, as pandas `drop_duplicates`), shuffle with a fixed seed
(`sample(frac=1, random_state=42)`, modelled by an arbitrary permutation
function argument), keep the first 5, stringify, then greedily keep a
sample while the running total of string lengths stays within 1000.  The
running total (Python walrus `length := length + len(s)`) also counts the
lengths of skipped candidates. -/

/-- First-occurrence deduplication (pandas `drop_duplicates`). -/
def dedupAux (seen : List String) : List String → List String
  | [] => []
  | x :: xs => if x ∈ seen then dedupAux seen xs else x :: dedupAux (x :: seen) xs

/-- First-occurrence deduplication of a value list. -/
def pyDedup (xs : List String) : List String := dedupAux [] xs

/-- Greedy budgeted selection: `len0` is the running total so far; a
candidate is kept exactly when the updated running total stays `≤ 1000`. -/
def buildSamples (len0 : Nat) : List String → List String
  | [] => []
  | s :: rest =>
    if len0 + s.length ≤ 1000 then s :: buildSamples (len0 + s.length) rest
    else buildSamples (len0 + s.length) rest

/-- Sum of the lengths of a list of strings. -/
def sumLens (xs : List String) : Nat := (xs.map String.length).sum

/-- Column of an input table: name, pandas dtype name, stringified cell
values in row order. -/
structure ColInput where
  name : String
  dtype : String
  values : List String

/-- Input table: its columns and its number of rows. -/
structure DfInput where
  cols : List ColInput
  nrows : Nat

/-- Candidate sample list of a column: deduplicated values, shuffled by
the fixed-seed permutation `perm`, first 5 kept. -/
def candidateSamples (perm : List String → List String) (vals : List String) :
    List String :=
  (perm (pyDedup vals)).take 5

/-- Extracted descriptor of one column: uppercased dtype and the
budget-limited samples. -/
structure ColDescriptor where
  name : String
  dtype : String
  samples : List String
  deriving DecidableEq

/-- Descriptor built for one column by `_extract_schema_from_table`. -/
def mkColDescriptor (perm : List String → List String) (c : ColInput) :
    ColDescriptor :=
  { name := c.name
    dtype := upperStr c.dtype
    samples := buildSamples 0 (candidateSamples perm c.values) }

/-- Serialized head of the table (`df.head(5).to_csv(index=True)`):
header line with a leading index column, then one line per row. -/
def csvHeadSnippet (df : DfInput) : String :=
  let header := String.intercalate "," ("" :: df.cols.map (fun c => c.name))
  let rows := (List.range (min 5 df.nrows)).map (fun i =>
    String.intercalate ","
      (toString i :: df.cols.map (fun c => c.values.getD i "")))
  String.intercalate "\n" (header :: rows) ++ "\n"

/-- Table schema produced by structural extraction. -/
structure TableSchema where
  name : String
  rawDataSnippet : String
  rowCount : Option Nat
  colCount : Nat
  columns : List ColDescriptor
  irregularJudgment : Option String

/-- Model of `StructuredDataProfiler._extract_schema_from_table`: the
`row_count` field is the sample length only when below 100, else null;
the produced dictionary carries no `irregular_judgment` key. -/
def extractSchemaFromTable (perm : List String → List String) (df : DfInput)
    (dfName : String) : TableSchema :=
  { name := dfName
    rawDataSnippet := csvHeadSnippet df
    rowCount := if df.nrows < 100 then some df.nrows else none
    colCount := df.cols.length
    columns := df.cols.map (mkColDescriptor perm)
    irregularJudgment := none }

/-- Model of `CsvProfiler._read_data` (lines 589-610): a full-scan row
count, then direct schema extraction of the ≤100-row sample.  The
irregular-table routing present in the Excel path is absent here (it is
commented out in the source), so the extraction is unconditional. -/
def csvReadData (perm : List String → List String) (df : DfInput)
    (fileName : String) (polarsRowCount : Nat) : TableSchema :=
  let schema := extractSchemaFromTable perm df fileName
  { schema with rowCount := some polarsRowCount }

/-! ## Name sanitization (`DataSourceManager._sanitize_name`, lines 457-475) -/

/-- Character substitution of `re.sub("[^a-zA-Z0-9_]", "_", name)`. -/
def keepChar (c : Char) : Char := if c.isAlphanum || c = '_' then c else '_'

/-- Leading-character fix: when the first character is neither a letter
nor an underscore, prepend an underscore. -/
def forceLead : List Char → List Char
  | [] => []
  | c :: rest => if !c.isAlpha && c != '_' then '_' :: c :: rest else c :: rest

/-- Model of `_sanitize_name` over character lists: substitute, force a
leading letter/underscore, truncate to 50, default to "unknown". -/
def sanitizeChars (cs : List Char) : List Char :=
  let trunc := (forceLead (cs.map keepChar)).take 50
  if trunc.isEmpty then "unknown".data else trunc

/-- Model of `DataSourceManager._sanitize_name`. -/
def sanitizeName (s : String) : String := ⟨sanitizeChars s.data⟩

/-! ## Relational introspection (`RelationalDatabaseProfiler._read_data`)

Source lines 466-586.  Per enumerated table the code runs, inside one
try-block: (1) `inspector.get_columns`, (2) the `COUNT(*)` query, (3) a
nested try-block fetching the first 5 rows for the snippet (only this
step is isolated: on failure the snippet becomes `None`), (4) per-column
samples built from the Python variable `rows`.  `rows` is assigned only
when step (3)'s fetch succeeds, so after a failed fetch it still holds
the rows of the last table whose fetch succeeded — and is unbound
(`NameError`, caught by the outer handler) when no earlier fetch
succeeded.  Any exception in steps (1), (2) or (4) skips the table. -/

/-- Column metadata returned by the inspector. -/
structure DbColumn where
  name : String
  colType : String
  deriving DecidableEq

/-- One fetched row: cell values, `none` modelling SQL NULL. -/
abbrev DbRow := List (Option String)

/-- Outcome of the three per-table queries; `none` models the query
raising. `rowCountRes` is the computed count (0 when `fetchone` returned
nothing). -/
structure TableFetch where
  name : String
  cols : Option (List DbColumn)
  rowCountRes : Option Nat
  snippetRows : Option (List DbRow)

/-- Python `str(value)` with NULL rendering. -/
def valStr : Option String → String
  | none => "NULL"
  | some s => s

/-- Snippet cell rendering: NULL, or the value quoted when it contains a
comma or newline. -/
def escVal (v : Option String) : String :=
  match v with
  | none => "NULL"
  | some s =>
    if containsSeq [','] s.data || containsSeq ['\n'] s.data then
      "\"" ++ s ++ "\""
    else s

/-- Snippet text: header line of column names then the fetched rows;
empty when no rows were fetched. -/
def buildSnippet (cs : List DbColumn) (rows : List DbRow) : String :=
  if rows.isEmpty then ""
  else
    String.intercalate "\n"
      (String.intercalate ", " (cs.map (fun c => c.name)) ::
        rows.map (fun r => String.intercalate ", " (r.map escVal)))

/-- Samples of column `i` from the fetched rows: values present at index
`i`, stringified, first 3 kept. -/
def sampleFor (i : Nat) (rows : List DbRow) : List String :=
  ((rows.filterMap (fun r => r.get? i)).map valStr).take 3

/-- Per-column details (step 4): empty when `rows` is empty. -/
def colDetails (cs : List DbColumn) (rows : List DbRow) : List ColDescriptor :=
  if rows.isEmpty then []
  else cs.enum.map (fun p =>
    { name := p.2.name, dtype := p.2.colType, samples := sampleFor p.1 rows })

/-- Aggregated record of one successfully introspected table. -/
structure TableInfo where
  name : String
  rowCount : Nat
  colCount : Nat
  rawDataSnippet : Option String
  columns : List ColDescriptor

/-- Model of the per-table loop of `_read_data`.  The first argument is
the current value of the Python variable `rows` (`none` = still
unbound). -/
def processTables : Option (List DbRow) → List TableFetch → List TableInfo
  | _, [] => []
  | prevRows, t :: ts =>
    match t.cols with
    | none => processTables prevRows ts
    | some cs =>
      match t.rowCountRes with
      | none => processTables prevRows ts
      | some rc =>
        match t.snippetRows with
        | some rws =>
          { name := t.name, rowCount := rc, colCount := cs.length
            rawDataSnippet := some (buildSnippet cs rws)
            columns := colDetails cs rws } :: processTables (some rws) ts
        | none =>
          match prevRows with
          | none => processTables none ts
          | some pr =>
            { name := t.name, rowCount := rc, colCount := cs.length
              rawDataSnippet := none
              columns := colDetails cs pr } :: processTables (some pr) ts

/-- Number of tables whose column-metadata fetch failed. -/
def countColFetchFailed (ts : List TableFetch) : Nat :=
  ts.countP (fun t => t.cols.isNone)

/-! ## Profile lifecycle (`BaseDataProfiler.generate_profile`, lines 92-113)

The body runs read → build-content → LLM-call/parse → merge inside one
try-block whose handler logs and sets the profile to the empty dict, so
the method itself never raises. -/

/-- Error taxonomy relevant to the lifecycle: the distinguished
connection error raised by `RelationalDatabaseProfiler._read_data`, and
everything else. -/
inductive ProfileError where
  | connectionError (msg : String)
  | otherError (msg : String)
  deriving DecidableEq

/-- Environment of one database source: whether `engine.connect()`
succeeds (with the exception text when not) and the per-table query
outcomes. -/
structure DbEnv where
  connectOk : Bool
  connectMsg : String
  tables : List TableFetch

/-- Final schema of a relational source. -/
structure DbSchema where
  name : String
  tables : List TableInfo

/-- Model of `RelationalDatabaseProfiler._read_data`: a connect failure
raises the distinguished `ConnectionError`; otherwise the table loop
runs with the `rows` variable initially unbound. -/
def relationalReadData (dsn : String) (env : DbEnv) :
    Except ProfileError DbSchema :=
  if env.connectOk then
    Except.ok { name := dsn, tables := processTables none env.tables }
  else
    Except.error (ProfileError.connectionError
      ("Failed to connect to database: " ++ env.connectMsg))

/-- Model of `BaseDataProfiler.generate_profile`: the whole lifecycle is
wrapped in a catch-all; any error yields the empty profile `emptyP`. -/
def generateProfile {D R P : Type} (emptyP : P)
    (readData : Except ProfileError D)
    (buildContent : D → Except ProfileError String)
    (llmCall : String → Except ProfileError R)
    (wrapResponse : R → Except ProfileError P) : Except ProfileError P :=
  match readData.bind (fun d => (buildContent d).bind (fun c =>
      (llmCall c).bind wrapResponse)) with
  | Except.ok p => Except.ok p
  | Except.error _ => Except.ok emptyP

/-! ## Merge step (`StructuredDataProfiler._wrap_data_response`, lines 301-343) -/

/-- Original table entry of the structural schema. -/
structure OrigTable where
  name : String
  columns : Option (List ColDescriptor)
  irregularJudgment : Option String
  deriving DecidableEq

/-- Table entry of the LLM response. -/
structure RespTable where
  name : String
  description : String
  deriving DecidableEq

/-- Structural schema held in `self.data`; optional fields model optional
dictionary keys. -/
structure SchemaData where
  name : String
  columns : Option (List ColDescriptor)
  tables : Option (List OrigTable)

/-- LLM response dictionary. -/
structure RespData where
  description : String
  tables : Option (List RespTable)

/-- Merged table entry of the output profile. -/
structure MergedTable where
  name : String
  description : String
  columns : Option (List ColDescriptor)
  irregularJudgment : Option String
  deriving DecidableEq

/-- Merged output profile. -/
structure MergedSchema where
  name : String
  description : String
  columns : Option (List ColDescriptor)
  tables : Option (List MergedTable)

/-- Lookup in the Python dict comprehension `res_des_map`: the
description of the last response table bearing the name. -/
def resDesMap (rts : List RespTable) (n : String) : Option String :=
  (rts.reverse.find? (fun t => t.name == n)).map (fun t => t.description)

/-- Translation of the output-table for-loop: tables are appended in
original order, skipping names absent from `res_des_map`. -/
def mergeTablesLoop (rts : List RespTable) (dts : List OrigTable) :
    List MergedTable :=
  dts.foldl (fun acc t =>
    match resDesMap rts t.name with
    | none => acc
    | some d => acc ++ [{ name := t.name, description := d,
                          columns := t.columns,
                          irregularJudgment := t.irregularJudgment }]) []

/-- Model of `_wrap_data_response`: name from the data, description from
the response, flat columns carried over when present, and the table list
built only when both sides carry one. -/
def wrapDataResponse (data : SchemaData) (resp : RespData) : MergedSchema :=
  { name := data.name
    description := resp.description
    columns := data.columns
    tables :=
      match data.tables, resp.tables with
      | some dts, some rts => some (mergeTablesLoop rts dts)
      | _, _ => none }

/-! ## Budget truncation (`TextPostHook.truncate_and_save_response`)

Source lines 34-101 (the list-content branch).  A local counter starts
at the configured budget; a text block longer than the *current* counter
is cut to `int(counter * 0.85)` characters plus a marker; after every
text block the counter is decremented by the block's full length and the
loop breaks once it is `≤ 0`.  Non-text blocks are neither forwarded nor
counted.  The side-channel save of the original content (a sandbox file
write keyed by a fresh uuid) is I/O and outside this model; the boolean
result records whether any truncation occurred. -/

/-- One content segment of a tool response. -/
inductive Block where
  | text (s : String)
  | other (tag : String)
  deriving DecidableEq

/-- Truncation marker appended to a cut segment. -/
def truncHint : String := "\n\n[Content is too long and truncated....]"

/-- Boolean test for a text segment. -/
def isTextB : Block → Bool
  | Block.text _ => true
  | Block.other _ => false

/-- Length a segment contributes to the counter. -/
def blockLen : Block → Nat
  | Block.text s => s.length
  | Block.other _ => 0

/-- Total text length of a segment list. -/
def sumTextLen (bs : List Block) : Nat := (bs.map blockLen).sum

/-- Model of the list-branch loop: returns the forwarded segments and
whether truncation occurred.  `int(budget * 0.85)` is modelled exactly as
`Int.tdiv (17 * budget) 20` (both truncate toward zero). -/
def truncateGo (budget : Int) : List Block → List Block × Bool
  | [] => ([], false)
  | Block.other _ :: rest => truncateGo budget rest
  | Block.text s :: rest =>
    if (s.length : Int) > budget then
      let threshold := Int.tdiv (17 * budget) 20
      let b := Block.text (pyTake s threshold ++ truncHint)
      if budget - s.length ≤ 0 then ([b], true)
      else
        let r := truncateGo (budget - s.length) rest
        (b :: r.1, true)
    else
      if budget - s.length ≤ 0 then ([Block.text s], false)
      else
        let r := truncateGo (budget - s.length) rest
        (Block.text s :: r.1, r.2)

/-! ## Name derivation (`DataSourceManager._generate_name`, lines 344-455)

The generic-URL branch (`urlparse`) is reachable only from the exception
handler of the database branch, and the database branch performs only
total string operations, so that handler never fires; the model
therefore ends in the `sanitize(endpoint[:50])` fallback.  The
filesystem test `os.path.isfile` is passed in as a boolean. -/

/-- Python `os.path.basename`: the text after the last slash. -/
def basenameCh (s : List Char) : List Char := (splitAllCh '/' s).getLastD []

/-- Index of the last dot of the list, when any. -/
def lastDotIdx (s : List Char) : Option Nat :=
  ((List.range s.length).filter (fun i => s.getD i ' ' = '.')).getLast?

/-- Python `os.path.splitext`: split at the last dot unless every
character before it is itself a dot. -/
def splitextCh (s : List Char) : List Char × List Char :=
  match lastDotIdx s with
  | none => (s, [])
  | some i =>
    if (s.take i).any (fun c => c ≠ '.') then (s.take i, s.drop i) else (s, [])

/-- Database-endpoint indicator substrings, matched on the lowercased
endpoint. -/
def dbIndicators : List (List Char) :=
  ["://".data, ".db".data, ".sqlite".data, "mongodb://".data,
   "mongodb+srv://".data, "neo4j://".data, "bolt://".data]

/-- Endpoint test `any(indicator in endpoint.lower() ...)`. -/
def hasDbIndicator (e : List Char) : Bool :=
  dbIndicators.any (fun ind => containsSeq ind (e.map Char.toLower))

/-- Database-URL branch of `_generate_name`: lowercase the scheme, keep
only the username of a `user:password@` credential pair, take the last
path segment stripped of query and fragment (falling back to the
second-to-last segment, then "unknown"), or the host when the rest has
no slash; finally sanitize `scheme_dbname`. -/
def dbUrlName (e : List Char) : String :=
  match splitFirst "://".data e with
  | none => sanitizeName ⟨e.take 50⟩
  | some (schemeRaw, rest0) =>
    let scheme := schemeRaw.map Char.toLower
    let rest :=
      if containsSeq ['@'] rest0 then
        match splitFirst ['@'] rest0 with
        | some (auth, host) =>
          if containsSeq [':'] auth then
            ((splitAllCh ':' auth).headD []) ++ '@' :: host
          else rest0
        | none => rest0
      else rest0
    let dbName :=
      if containsSeq ['/'] rest then
        let ps := splitAllCh '/' rest
        if ps.length > 1 then
          let d := (splitAllCh '#'
            ((splitAllCh '?' (ps.getLastD [])).headD [])).headD []
          if d.isEmpty then
            (if ps.length > 2 then ps.getD (ps.length - 2) [] else "unknown".data)
          else d
        else "unknown".data
      else
        (splitAllCh '@'
          ((splitAllCh '/' ((splitAllCh ':' rest).headD [])).headD [])).getLastD []
    sanitizeName ⟨scheme ++ '_' :: dbName⟩

/-- Model of `DataSourceManager._generate_name`. -/
def generateName (isFile : Bool) (endpoint : String) : String :=
  let e := endpoint.data
  if isFile then sanitizeName ⟨(splitextCh (basenameCh e)).1⟩
  else if hasDbIndicator e then
    if containsSeq "://".data e then dbUrlName e
    else if containsSeq ['.'] e then sanitizeName ⟨(splitextCh (basenameCh e)).1⟩
    else sanitizeName ⟨e.take 50⟩
  else sanitizeName ⟨e.take 50⟩

/-! ## Helper lemmas -/

/-- Length sum of a cons. -/
theorem sumLens_cons (s : String) (l : List String) :
    sumLens (s :: l) = s.length + sumLens l := by
  simp [sumLens]

/-- Once the running total is above the budget nothing further is kept. -/
theorem buildSamples_exceeded (n : Nat) (cs : List String) (h : 1000 < n) :
    buildSamples n cs = [] := by
  induction cs generalizing n with
  | nil => rfl
  | cons s rest ih =>
    have hc : ¬ (n + s.length ≤ 1000) := by omega
    simp only [buildSamples, if_neg hc]
    exact ih _ (by omega)

/-- The kept samples are an initial run of the candidate list. -/
theorem buildSamples_initial (n : Nat) (cs : List String) :
    buildSamples n cs <+: cs := by
  induction cs generalizing n with
  | nil => simp [buildSamples]
  | cons s rest ih =>
    by_cases h : n + s.length ≤ 1000
    · obtain ⟨u, hu⟩ := ih (n + s.length)
      exact ⟨u, by simp [buildSamples, if_pos h, hu]⟩
    · have h3 : buildSamples (n + s.length) rest = [] :=
        buildSamples_exceeded _ _ (by omega)
      simp [buildSamples, if_neg h, h3]

/-- The running total plus the kept lengths stays within the budget
unless nothing at all was kept. -/
theorem buildSamples_sum (n : Nat) (cs : List String) :
    n + sumLens (buildSamples n cs) ≤ 1000 ∨ buildSamples n cs = [] := by
  induction cs generalizing n with
  | nil => right; rfl
  | cons s rest ih =>
    by_cases h : n + s.length ≤ 1000
    · left
      rcases ih (n + s.length) with h2 | h2
      · simp only [buildSamples, if_pos h, sumLens_cons]
        omega
      · simp only [buildSamples, if_pos h, h2, sumLens_cons]
        simp [sumLens]
        omega
    · rcases ih (n + s.length) with h2 | h2
      · exact absurd (by omega : n + s.length ≤ 1000) h
      · right
        simp [buildSamples, if_neg h, h2]

/-- Every character produced by the substitution step is alphanumeric or
an underscore. -/
theorem keepChar_good (c : Char) :
    ((keepChar c).isAlphanum || keepChar c = '_') = true := by
  unfold keepChar
  by_cases h : (c.isAlphanum || decide (c = '_')) = true
  · rw [if_pos h]
    exact h
  · rw [if_neg h]
    decide

/-- Every member of the lead-fixed list is an underscore or a member of
the original list. -/
theorem forceLead_sub (l : List Char) : ∀ x ∈ forceLead l, x ∈ '_' :: l := by
  cases l with
  | nil => intro x hx; cases hx
  | cons c rest =>
    intro x hx
    simp only [forceLead] at hx
    by_cases hc : (!c.isAlpha && c != '_') = true
    · rw [if_pos hc] at hx
      exact hx
    · rw [if_neg hc] at hx
      exact List.mem_cons_of_mem _ hx

/-- The lead-fixed list of a nonempty list is nonempty and starts with a
letter or an underscore. -/
theorem forceLead_head (c : Char) (rest : List Char) :
    ∃ h t, forceLead (c :: rest) = h :: t ∧ (h.isAlpha || h = '_') = true := by
  simp only [forceLead]
  by_cases hc : (!c.isAlpha && c != '_') = true
  · exact ⟨'_', c :: rest, by rw [if_pos hc], by decide⟩
  · refine ⟨c, rest, by rw [if_neg hc], ?_⟩
    by_cases ha : c.isAlpha
    · simp [ha]
    · have h2 : c = '_' := by
        by_contra hne
        exact hc (by simp [ha, hne])
      simp [h2]

/-- Combined properties of the sanitizer over character lists. -/
theorem sanitizeChars_props (cs : List Char) :
    sanitizeChars cs ≠ [] ∧
    (sanitizeChars cs).length ≤ 50 ∧
    ((sanitizeChars cs).all (fun c => c.isAlphanum || c = '_')) = true ∧
    ∃ c rest, sanitizeChars cs = c :: rest ∧ (c.isAlpha || c = '_') = true := by
  cases cs with
  | nil =>
    exact ⟨by decide, by decide, by decide, 'u', "nknown".data, by decide, by decide⟩
  | cons a as =>
    obtain ⟨h, t, hfl, hhead⟩ := forceLead_head (keepChar a) (as.map keepChar)
    have htake : (h :: t).take 50 = h :: t.take 49 := rfl
    have hdef : sanitizeChars (a :: as) = h :: t.take 49 := by
      unfold sanitizeChars
      rw [List.map_cons, hfl, htake]
      rfl
    refine ⟨by rw [hdef]; exact List.cons_ne_nil _ _, ?_, ?_, h, t.take 49, hdef, hhead⟩
    · rw [hdef, ← htake, ← hfl]
      have := List.length_take 50 (forceLead (keepChar a :: as.map keepChar))
      omega
    · rw [List.all_eq_true]
      intro x hx
      rw [hdef, ← htake, ← hfl] at hx
      have hx1 : x ∈ forceLead (keepChar a :: as.map keepChar) :=
        List.take_subset _ _ hx
      have hx2 := forceLead_sub _ x hx1
      rcases List.mem_cons.mp hx2 with h1 | h2
      · subst h1
        decide
      · rw [← List.map_cons] at h2
        obtain ⟨y, _, rfl⟩ := List.mem_map.mp h2
        exact keepChar_good y

/-! ## Claim theorems: irregularity predicate, samples, naming -/

/-- Integer form of the rational ratio comparison performed by the
predicate, valid on non-empty column lists. -/
theorem is_irregular_eq (cols : List String) (h : cols.length ≠ 0) :
    is_irregular cols = some (decide (2 * countUnnamed cols ≥ cols.length)) := by
  rw [is_irregular, if_neg h, Option.some_inj, decide_eq_decide]
  have hl : (0 : ℚ) < (cols.length : ℚ) := by
    exact_mod_cast Nat.pos_of_ne_zero h
  rw [ge_iff_le, div_le_div_iff₀ (by norm_num) hl, one_mul]
  constructor
  · intro hq
    have hq2 : (cols.length : ℚ) ≤ ((2 * countUnnamed cols : ℕ) : ℚ) := by
      push_cast
      linarith
    exact_mod_cast hq2
  · intro hn
    have hq2 : (cols.length : ℚ) ≤ ((2 * countUnnamed cols : ℕ) : ℚ) := by
      exact_mod_cast hn
    push_cast at hq2
    linarith

/-- C7: for every non-empty column-name list the irregularity predicate
returns true exactly when the count of names starting with "Unnamed"
divided by the number of columns is at least 0.5; in particular 2 unnamed
of 4 columns gives true (boundary inclusive) and 2 unnamed of 5 columns
gives false. -/
theorem is_irregular_characterization :
    (∀ cols : List String, cols ≠ [] →
      (is_irregular cols = some true ↔ 2 * countUnnamed cols ≥ cols.length)) ∧
    is_irregular ["a", "b", "Unnamed: 0", "Unnamed: 1"] = some true ∧
    is_irregular ["a", "b", "c", "Unnamed: 0", "Unnamed: 1"] = some false := by
  refine ⟨?_, ?_, ?_⟩
  · intro cols h
    rw [is_irregular_eq cols (fun hh => h (List.length_eq_zero.mp hh)),
      Option.some_inj, decide_eq_true_iff]
  · rw [is_irregular_eq _ (by decide)]
    decide
  · rw [is_irregular_eq _ (by decide)]
    decide

/-- Witness for C7: the characterization instantiated at a concrete
two-column list, one of them unnamed. -/
theorem is_irregular_characterization_witness :
    is_irregular ["Unnamed: 0", "b"] = some true ↔
      2 * countUnnamed ["Unnamed: 0", "b"] ≥
        (["Unnamed: 0", "b"] : List String).length :=
  is_irregular_characterization.1 _ (by decide)

/-- C10: the irregularity predicate is undefined exactly on the empty
column list, where the unnamed-ratio computation divides by zero and
raises; on every non-empty list it is defined. -/
theorem is_irregular_empty_undefined :
    ∀ cols : List String, is_irregular cols = none ↔ cols = [] := by
  intro cols
  cases cols with
  | nil => simp [is_irregular]
  | cons c cs => simp [is_irregular]

/-- C8: the name sanitizer always returns a non-empty string of at most
50 characters drawn from letters, digits and underscore, starting with a
letter or an underscore, and maps the empty input to "unknown". -/
theorem sanitize_name_invariant :
    ∀ s : String,
      sanitizeName s ≠ "" ∧
      (sanitizeName s).length ≤ 50 ∧
      ((sanitizeName s).data.all (fun c => c.isAlphanum || c = '_')) = true ∧
      (∃ c rest, (sanitizeName s).data = c :: rest ∧
        (c.isAlpha || c = '_') = true) ∧
      sanitizeName "" = "unknown" := by
  intro s
  obtain ⟨h1, h2, h3, c, rest, h4, h5⟩ := sanitizeChars_props s.data
  refine ⟨?_, h2, h3, ⟨c, rest, h4, h5⟩, by decide⟩
  intro hemp
  exact h1 (congrArg String.data hemp)

/-- C9: name derivation on the DSN
`postgresql://u:p@host:5432/my_db?x=1` yields exactly `postgresql_my_db`;
neither the credential pair nor the query string survives into the name. -/
theorem db_name_derivation_concrete :
    generateName false "postgresql://u:p@host:5432/my_db?x=1" =
      "postgresql_my_db" ∧
    containsSeq ":p@".data
      (generateName false "postgresql://u:p@host:5432/my_db?x=1").data = false ∧
    containsSeq "x=1".data
      (generateName false "postgresql://u:p@host:5432/my_db?x=1").data = false := by
  refine ⟨by decide, by decide, by decide⟩

/-- Concrete three-column frame whose header yields the names
`id, Unnamed: 0, Unnamed: 1`. -/
def dfIrr : DfInput :=
  { cols := [ { name := "id", dtype := "Int64", values := ["1", "2", "3"] },
              { name := "Unnamed: 0", dtype := "Float64",
                values := ["1.5", "2.5", "3.5"] },
              { name := "Unnamed: 1", dtype := "string",
                values := ["x", "y", "z"] } ]
    nrows := 3 }

/-- Counterexample for C5: on the three-column file
`id, Unnamed: 0, Unnamed: 1` the irregularity predicate does evaluate to
true (2/3 ≥ 0.5), yet the CSV read path performs direct schema
extraction — its output carries the directly extracted columns and no
irregular judgment, so no irregular-table recovery is ever entered. -/
theorem csv_irregular_routing_cex :
    is_irregular ["id", "Unnamed: 0", "Unnamed: 1"] = some true ∧
    (csvReadData id dfIrr "data.csv" 3).irregularJudgment = none ∧
    (csvReadData id dfIrr "data.csv" 3).columns =
      (extractSchemaFromTable id dfIrr "data.csv").columns := by
  refine ⟨?_, rfl, rfl⟩
  rw [is_irregular_eq _ (by decide)]
  decide

/-- C5 (amended): the irregularity predicate evaluates to true on the
header `id, Unnamed: 0, Unnamed: 1` (2/3 ≥ 0.5), but the CSV profiling
path never consults it: `CsvProfiler._read_data` performs direct schema
extraction unconditionally (the irregular-table routing is commented
out), keeping the extracted columns, no irregular judgment, and the
full-scan row count. -/
theorem csv_direct_extraction :
    is_irregular ["id", "Unnamed: 0", "Unnamed: 1"] = some true ∧
    ∀ (perm : List String → List String) (df : DfInput) (nm : String)
      (rc : Nat),
      (csvReadData perm df nm rc).irregularJudgment = none ∧
      (csvReadData perm df nm rc).columns =
        (extractSchemaFromTable perm df nm).columns ∧
      (csvReadData perm df nm rc).rowCount = some rc := by
  refine ⟨?_, fun _ _ _ _ => ⟨rfl, rfl, rfl⟩⟩
  rw [is_irregular_eq _ (by decide)]
  decide

/-- C6: every column descriptor produced by schema extraction keeps
samples whose total length is at most 1000, keeps at most 5 of them, and
they form an initial run of the deduplicated, seed-shuffled candidate
list; once the running total is above the budget nothing further is
appended. -/
theorem sample_budget_invariant :
    (∀ (perm : List String → List String) (df : DfInput) (nm : String)
        (cd : ColDescriptor),
        cd ∈ (extractSchemaFromTable perm df nm).columns →
        sumLens cd.samples ≤ 1000 ∧ cd.samples.length ≤ 5 ∧
        ∃ c, c ∈ df.cols ∧ cd.samples <+: candidateSamples perm c.values) ∧
    (∀ (n : Nat) (cs : List String), 1000 < n → buildSamples n cs = []) := by
  constructor
  · intro perm df nm cd hcd
    simp only [extractSchemaFromTable] at hcd
    obtain ⟨c, hc, rfl⟩ := List.mem_map.mp hcd
    have hsamples : (mkColDescriptor perm c).samples =
        buildSamples 0 (candidateSamples perm c.values) := rfl
    refine ⟨?_, ?_, c, hc, ?_⟩
    · rcases buildSamples_sum 0 (candidateSamples perm c.values) with h | h
      · rw [hsamples]
        omega
      · rw [hsamples, h]
        decide
    · have hp := buildSamples_initial 0 (candidateSamples perm c.values)
      have hlen := hp.length_le
      have ht : (candidateSamples perm c.values).length ≤ 5 := by
        simp [candidateSamples]
      rw [hsamples]
      omega
    · rw [hsamples]
      exact buildSamples_initial 0 _
  · exact fun n cs h => buildSamples_exceeded n cs h

/-- Sample column used in the C6 witness. -/
def colEx : ColInput := { name := "v", dtype := "Int64", values := ["10", "20"] }

/-- Sample frame used in the C6 witness. -/
def dfEx : DfInput := { cols := [colEx], nrows := 2 }

/-- Witness for C6: the invariant instantiated at a concrete one-column
frame. -/
theorem sample_budget_invariant_witness :
    sumLens (mkColDescriptor id colEx).samples ≤ 1000 ∧
    (mkColDescriptor id colEx).samples.length ≤ 5 := by
  have h := sample_budget_invariant.1 id dfEx "t" (mkColDescriptor id colEx)
    (by simp [dfEx, extractSchemaFromTable])
  exact ⟨h.1, h.2.1⟩

/-! ## Merge-step lemmas and claim -/

/-- The output-table loop is the filterMap of the per-table merge over
the original tables, in their original order. -/
theorem mergeLoop_aux (rts : List RespTable) (dts : List OrigTable) :
    ∀ acc : List MergedTable,
      dts.foldl (fun acc t =>
        match resDesMap rts t.name with
        | none => acc
        | some d => acc ++ [{ name := t.name, description := d,
                              columns := t.columns,
                              irregularJudgment := t.irregularJudgment }]) acc
      = acc ++ dts.filterMap (fun t =>
          (resDesMap rts t.name).map (fun d =>
            ({ name := t.name, description := d, columns := t.columns,
               irregularJudgment := t.irregularJudgment } : MergedTable))) := by
  induction dts with
  | nil =>
    intro acc
    simp
  | cons t ts ih =>
    intro acc
    simp only [List.foldl_cons, List.filterMap_cons]
    cases h : resDesMap rts t.name with
    | none =>
      simp only [h, Option.map_none']
      exact ih acc
    | some d =>
      simp only [h, Option.map_some']
      rw [ih (acc ++ [_])]
      simp

/-- A successful lookup in `res_des_map` comes from a response table with
the looked-up name. -/
theorem resDesMap_some (rts : List RespTable) (n : String) (d : String)
    (h : resDesMap rts n = some d) :
    ∃ rt, rt ∈ rts ∧ rt.name = n ∧ rt.description = d := by
  unfold resDesMap at h
  cases hf : rts.reverse.find? (fun t => t.name == n) with
  | none =>
    rw [hf] at h
    cases h
  | some rt =>
    rw [hf] at h
    refine ⟨rt, ?_, ?_, ?_⟩
    · exact List.mem_reverse.mp (List.mem_of_find?_eq_some hf)
    · have := List.find?_some hf
      exact eq_of_beq this
    · cases h
      rfl

/-- C4: the merged profile's table list is produced by iterating the
original tables in order, keeping exactly those whose name has an entry
in the LLM response's table list, taking each kept table's description
from the response, and carrying the original columns and
irregular-judgment metadata over unchanged; omitted tables are silently
absent and no table entry appears without an original counterpart. -/
theorem wrap_response_merge :
    ∀ (data : SchemaData) (resp : RespData) (dts : List OrigTable)
      (rts : List RespTable),
      data.tables = some dts → resp.tables = some rts →
      ((wrapDataResponse data resp).tables =
        some (dts.filterMap (fun t =>
          (resDesMap rts t.name).map (fun d =>
            ({ name := t.name, description := d, columns := t.columns,
               irregularJudgment := t.irregularJudgment } : MergedTable)))) ∧
       (wrapDataResponse data resp).name = data.name ∧
       (wrapDataResponse data resp).description = resp.description ∧
       (wrapDataResponse data resp).columns = data.columns ∧
       ∀ (mt : MergedTable) (l : List MergedTable),
         (wrapDataResponse data resp).tables = some l → mt ∈ l →
         (∃ rt, rt ∈ rts ∧ rt.name = mt.name ∧
            rt.description = mt.description) ∧
         ∃ ot, ot ∈ dts ∧ ot.name = mt.name ∧ mt.columns = ot.columns ∧
           mt.irregularJudgment = ot.irregularJudgment) := by
  intro data resp dts rts hd hr
  have htab : (wrapDataResponse data resp).tables =
      some (mergeTablesLoop rts dts) := by
    simp [wrapDataResponse, hd, hr]
  have hloop : mergeTablesLoop rts dts = dts.filterMap (fun t =>
      (resDesMap rts t.name).map (fun d =>
        ({ name := t.name, description := d, columns := t.columns,
           irregularJudgment := t.irregularJudgment } : MergedTable))) := by
    have := mergeLoop_aux rts dts []
    simpa [mergeTablesLoop] using this
  refine ⟨htab.trans (by rw [hloop]), rfl, rfl, rfl, ?_⟩
  intro mt l hl hmem
  rw [htab, hloop] at hl
  have hleq : l = dts.filterMap (fun t =>
      (resDesMap rts t.name).map (fun d =>
        ({ name := t.name, description := d, columns := t.columns,
           irregularJudgment := t.irregularJudgment } : MergedTable))) :=
    (Option.some_inj.mp hl).symm
  rw [hleq] at hmem
  obtain ⟨t, ht, hgt⟩ := List.mem_filterMap.mp hmem
  cases hdm : resDesMap rts t.name with
  | none =>
    rw [hdm] at hgt
    cases hgt
  | some d =>
    rw [hdm] at hgt
    have hmt : mt = { name := t.name, description := d,
                      columns := t.columns,
                      irregularJudgment := t.irregularJudgment } := by
      cases hgt
      rfl
    obtain ⟨rt, hrt, hrtn, hrtd⟩ := resDesMap_some rts t.name d hdm
    constructor
    · exact ⟨rt, hrt, by rw [hmt, hrtn], by rw [hmt, hrtd]⟩
    · exact ⟨t, ht, by rw [hmt], by rw [hmt], by rw [hmt]⟩

/-- Column list of table A in the C4 witness. -/
def colsA : List ColDescriptor :=
  [{ name := "x", dtype := "INT64", samples := ["1"] }]

/-- Original table A of the C4 witness. -/
def tA : OrigTable := { name := "A", columns := some colsA,
                        irregularJudgment := none }

/-- Original table B of the C4 witness (omitted by the response). -/
def tB : OrigTable := { name := "B", columns := none,
                        irregularJudgment := some "UNSTRUCTURED" }

/-- Structural schema of the C4 witness: tables A and B. -/
def dataEx : SchemaData := { name := "book.xlsx", columns := none,
                             tables := some [tA, tB] }

/-- LLM response of the C4 witness: it describes only table A. -/
def respEx : RespData := { description := "workbook",
                           tables := some [{ name := "A",
                                             description := "sheet A" }] }

/-- Witness for C4: merging a two-table schema with a response that
describes only table A keeps exactly A, with its original columns and the
response description; B is silently absent. -/
theorem wrap_response_merge_witness :
    (wrapDataResponse dataEx respEx).tables =
      some [{ name := "A", description := "sheet A", columns := some colsA,
              irregularJudgment := none }] := by
  have h := (wrap_response_merge dataEx respEx [tA, tB]
    [{ name := "A", description := "sheet A" }] rfl rfl).1
  rw [h]
  rfl

/-! ## Relational introspection claims -/

/-- Concrete table whose column fetch succeeds but whose row-count query
fails. -/
def tRowFail : TableFetch :=
  { name := "t1", cols := some [{ name := "c", colType := "INTEGER" }],
    rowCountRes := none, snippetRows := some [[some "1"]] }

/-- Concrete table for which all three queries succeed. -/
def tGood : TableFetch :=
  { name := "t2", cols := some [{ name := "c", colType := "INTEGER" }],
    rowCountRes := some 7, snippetRows := some [[some "1"]] }

/-- Counterexample for C2: a table whose column fetch succeeds but whose
row-count query fails is absent from the output, so the output size is
not the table total minus the column-fetch failures. -/
theorem relational_rowcount_cex :
    processTables none [tRowFail] = [] ∧
    tRowFail.cols.isSome = true ∧
    [tRowFail].length - countColFetchFailed [tRowFail] = 1 := by
  refine ⟨rfl, rfl, rfl⟩

/-- C2 (amended): a table is skipped when its column fetch fails, and
equally when its row-count query fails; when all three per-table queries
succeed it appears with name, columns, snippet and exact row count; when
only the snippet fetch fails the table appears with a null snippet — its
samples rebuilt from the rows of the last table whose snippet fetch
succeeded — but is skipped entirely when no earlier fetch succeeded;
hence the output size is at most (not exactly) the table total minus the
column-fetch failures. -/
theorem relational_table_isolation :
    (∀ (prev : Option (List DbRow)) (t : TableFetch) (ts : List TableFetch),
      t.cols = none →
      processTables prev (t :: ts) = processTables prev ts) ∧
    (∀ (prev : Option (List DbRow)) (t : TableFetch) (ts : List TableFetch)
        (cs : List DbColumn),
      t.cols = some cs → t.rowCountRes = none →
      processTables prev (t :: ts) = processTables prev ts) ∧
    (∀ (prev : Option (List DbRow)) (t : TableFetch) (ts : List TableFetch)
        (cs : List DbColumn) (rc : Nat) (rws : List DbRow),
      t.cols = some cs → t.rowCountRes = some rc → t.snippetRows = some rws →
      processTables prev (t :: ts) =
        { name := t.name, rowCount := rc, colCount := cs.length,
          rawDataSnippet := some (buildSnippet cs rws),
          columns := colDetails cs rws } :: processTables (some rws) ts) ∧
    (∀ (t : TableFetch) (ts : List TableFetch) (cs : List DbColumn) (rc : Nat)
        (pr : List DbRow),
      t.cols = some cs → t.rowCountRes = some rc → t.snippetRows = none →
      processTables (some pr) (t :: ts) =
        { name := t.name, rowCount := rc, colCount := cs.length,
          rawDataSnippet := none,
          columns := colDetails cs pr } :: processTables (some pr) ts) ∧
    (∀ (t : TableFetch) (ts : List TableFetch) (cs : List DbColumn) (rc : Nat),
      t.cols = some cs → t.rowCountRes = some rc → t.snippetRows = none →
      processTables none (t :: ts) = processTables none ts) ∧
    (∀ (prev : Option (List DbRow)) (ts : List TableFetch),
      (processTables prev ts).length ≤ ts.length - countColFetchFailed ts) := by
  refine ⟨?_, ?_, ?_, ?_, ?_, ?_⟩
  · intro prev t ts h
    simp only [processTables, h]
  · intro prev t ts cs h1 h2
    simp only [processTables, h1, h2]
  · intro prev t ts cs rc rws h1 h2 h3
    simp only [processTables, h1, h2, h3]
  · intro t ts cs rc pr h1 h2 h3
    simp only [processTables, h1, h2, h3]
  · intro t ts cs rc h1 h2 h3
    simp only [processTables, h1, h2, h3]
  · intro prev ts
    induction ts generalizing prev with
    | nil => simp [processTables, countColFetchFailed]
    | cons t ts ih =>
      have hle : countColFetchFailed ts ≤ ts.length :=
        List.countP_le_length _
      cases htc : t.cols with
      | none =>
        have hcc : countColFetchFailed (t :: ts) =
            countColFetchFailed ts + 1 := by
          simp [countColFetchFailed, List.countP_cons, htc]
        have h1 := ih prev
        simp only [processTables, htc, hcc, List.length_cons]
        omega
      | some cs =>
        have hcc : countColFetchFailed (t :: ts) = countColFetchFailed ts := by
          simp [countColFetchFailed, List.countP_cons, htc]
        cases htr : t.rowCountRes with
        | none =>
          have h1 := ih prev
          simp only [processTables, htc, htr, hcc, List.length_cons]
          omega
        | some rc =>
          cases hts : t.snippetRows with
          | some rws =>
            have h1 := ih (some rws)
            simp only [processTables, htc, htr, hts, hcc, List.length_cons]
            omega
          | none =>
            cases prev with
            | none =>
              have h1 := ih none
              simp only [processTables, htc, htr, hts, hcc, List.length_cons]
              omega
            | some pr =>
              have h1 := ih (some pr)
              simp only [processTables, htc, htr, hts, hcc, List.length_cons]
              omega

/-- Witness for C2 (amended): a row-count-failing table is skipped while
a fully succeeding table is introspected, at concrete inputs. -/
theorem relational_table_isolation_witness :
    processTables none [tRowFail, tGood] =
      [{ name := tGood.name, rowCount := 7, colCount := 1,
         rawDataSnippet := some (buildSnippet
           [{ name := "c", colType := "INTEGER" }] [[some "1"]]),
         columns := colDetails
           [{ name := "c", colType := "INTEGER" }] [[some "1"]] }] := by
  have h2 := relational_table_isolation.2.1 none tRowFail [tGood]
    [{ name := "c", colType := "INTEGER" }] rfl rfl
  have h3 := relational_table_isolation.2.2.1 none tGood ([] : List TableFetch)
    [{ name := "c", colType := "INTEGER" }] 7 [[some "1"]] rfl rfl rfl
  rw [h2, h3]
  rfl

/-! ## Lifecycle claims -/

/-- Counterexample for C1: when the database connection fails at setup,
`_read_data` does raise the distinguished `ConnectionError`, but the
catch-all of `generate_profile` swallows it like any other lifecycle
failure, so the caller receives an ordinary empty profile rather than a
raised error. -/
theorem connection_error_swallowed_cex :
    relationalReadData "postgresql://u:p@h/db"
      { connectOk := false, connectMsg := "refused", tables := [] } =
      Except.error (ProfileError.connectionError
        "Failed to connect to database: refused") ∧
    generateProfile (0 : Nat)
      (relationalReadData "postgresql://u:p@h/db"
        { connectOk := false, connectMsg := "refused", tables := [] })
      (fun _ => Except.ok "content") (fun _ => Except.ok (1 : Nat))
      (fun _ => Except.ok (7 : Nat)) = Except.ok 0 := by
  exact ⟨rfl, rfl⟩

/-- C1 (amended): `generate_profile` never raises to its caller — every
failure anywhere in the read → build → call → parse → merge lifecycle,
the setup `ConnectionError` of the relational reader included, is caught
by the top-level handler and yields the empty profile; the distinguished
connection error exists only inside `_read_data`, which does raise it on
connect failure. -/
theorem generate_profile_never_raises :
    (∀ (D R P : Type) (emptyP : P) (bc : D → Except ProfileError String)
        (lc : String → Except ProfileError R)
        (wr : R → Except ProfileError P) (e : ProfileError),
      generateProfile emptyP (Except.error e) bc lc wr = Except.ok emptyP) ∧
    (∀ (D R P : Type) (emptyP : P) (rd : Except ProfileError D)
        (bc : D → Except ProfileError String)
        (lc : String → Except ProfileError R)
        (wr : R → Except ProfileError P),
      ∃ q, generateProfile emptyP rd bc lc wr = Except.ok q) ∧
    (∀ (dsn : String) (env : DbEnv), env.connectOk = false →
      relationalReadData dsn env =
        Except.error (ProfileError.connectionError
          ("Failed to connect to database: " ++ env.connectMsg))) := by
  refine ⟨?_, ?_, ?_⟩
  · intro D R P emptyP bc lc wr e
    rfl
  · intro D R P emptyP rd bc lc wr
    unfold generateProfile
    cases rd.bind (fun d => (bc d).bind (fun c => (lc c).bind wr)) with
    | ok p => exact ⟨p, rfl⟩
    | error e => exact ⟨emptyP, rfl⟩
  · intro dsn env h
    simp [relationalReadData, h]

/-- Witness for C1 (amended): the lifecycle swallows a parse failure into
the empty profile, and a failing connection environment produces the
distinguished error from the reader, at concrete inputs. -/
theorem generate_profile_never_raises_witness :
    generateProfile (0 : Nat)
      (Except.error (ProfileError.otherError "bad json") :
        Except ProfileError Nat)
      (fun _ => Except.ok "c") (fun _ => Except.ok (1 : Nat))
      (fun _ => Except.ok (9 : Nat)) = Except.ok 0 ∧
    relationalReadData "db"
      { connectOk := false, connectMsg := "x", tables := [] } =
      Except.error (ProfileError.connectionError
        ("Failed to connect to database: " ++ "x")) :=
  ⟨generate_profile_never_raises.1 Nat Nat Nat 0 (fun _ => Except.ok "c")
      (fun _ => Except.ok (1 : Nat)) (fun _ => Except.ok (9 : Nat))
      (ProfileError.otherError "bad json"),
   generate_profile_never_raises.2.2 "db"
      { connectOk := false, connectMsg := "x", tables := [] } rfl⟩

/-! ## Truncation claims -/

/-- When every segment is text and the total length is strictly below the
budget, the walk forwards everything unchanged and flags no truncation. -/
theorem truncateGo_all_within (B : Int) (bs : List Block)
    (hall : bs.all isTextB = true) (hsum : (sumTextLen bs : Int) < B) :
    truncateGo B bs = (bs, false) := by
  induction bs generalizing B with
  | nil => rfl
  | cons b rest ih =>
    cases b with
    | other tag => simp [isTextB] at hall
    | text s =>
      have hall' : rest.all isTextB = true := by
        simp only [List.all_cons, Bool.and_eq_true] at hall
        exact hall.2
      have hs : sumTextLen (Block.text s :: rest) =
          s.length + sumTextLen rest := by
        simp [sumTextLen, blockLen]
      rw [hs] at hsum
      push_cast at hsum
      have hsum' : (sumTextLen rest : Int) < B - s.length := by omega
      have hnle : ¬ ((s.length : Int) > B) := by
        have h0 : (0 : Int) ≤ (sumTextLen rest : Int) := Int.natCast_nonneg _
        omega
      have hpos : ¬ (B - (s.length : Int) ≤ 0) := by
        have h0 : (0 : Int) ≤ (sumTextLen rest : Int) := Int.natCast_nonneg _
        omega
      simp only [truncateGo, if_neg hnle, if_neg hpos]
      rw [ih (B - s.length) hall' hsum']

/-- The first text segment exceeding the remaining budget, after an
all-text in-budget run, is cut to `int(0.85 * remaining)` characters with
the marker appended, and everything after it is dropped. -/
theorem truncateGo_overflow (B : Int) (pre : List Block) (s : String)
    (rest : List Block) (hall : pre.all isTextB = true)
    (hsum : (sumTextLen pre : Int) < B)
    (hover : (s.length : Int) > B - sumTextLen pre) :
    truncateGo B (pre ++ Block.text s :: rest) =
      (pre ++ [Block.text (pyTake s
        (Int.tdiv (17 * (B - sumTextLen pre)) 20) ++ truncHint)], true) := by
  induction pre generalizing B with
  | nil =>
    have h0 : sumTextLen ([] : List Block) = 0 := rfl
    rw [h0] at hover ⊢
    have hgt : (s.length : Int) > B := by simpa using hover
    have hbreak : B - (s.length : Int) ≤ 0 := by omega
    simp only [List.nil_append, truncateGo, if_pos hgt, if_pos hbreak]
    norm_num
  | cons b pre' ih =>
    cases b with
    | other tag => simp [isTextB] at hall
    | text s0 =>
      have hall' : pre'.all isTextB = true := by
        simp only [List.all_cons, Bool.and_eq_true] at hall
        exact hall.2
      have hs0 : sumTextLen (Block.text s0 :: pre') =
          s0.length + sumTextLen pre' := by
        simp [sumTextLen, blockLen]
      rw [hs0] at hsum hover
      push_cast at hsum hover
      have hsum' : (sumTextLen pre' : Int) < B - s0.length := by omega
      have hover' : (s.length : Int) > B - s0.length - sumTextLen pre' := by
        omega
      have hnle : ¬ ((s0.length : Int) > B) := by
        have h0 : (0 : Int) ≤ (sumTextLen pre' : Int) := Int.natCast_nonneg _
        omega
      have hpos : ¬ (B - (s0.length : Int) ≤ 0) := by
        have h0 : (0 : Int) ≤ (sumTextLen pre' : Int) := Int.natCast_nonneg _
        omega
      have harith : B - (s0.length : Int) - (sumTextLen pre' : Int) =
          B - (sumTextLen (Block.text s0 :: pre') : Int) := by
        rw [hs0]
        push_cast
        ring
      simp only [List.cons_append, truncateGo, if_neg hnle, if_neg hpos,
        List.append_eq]
      rw [ih (B - s0.length) hall' hsum' hover']
      rw [harith]

/-- Counterexample for C3: with configured budget 20 and a first segment
of length 10, the second (overflowing) segment is cut to
`int(0.85 * 10) = 8` characters — 85% of the remaining budget, not the
claimed `floor(0.85 * 20) = 17`; moreover a non-text segment is dropped
even though it fits, and a trailing segment after the counter reaches
zero is dropped without any truncation. -/
theorem truncate_budget_cex :
    truncateGo 20 [Block.text "0123456789",
        Block.text "aaaaaaaaaaaaaaaaaaaaa"] =
      ([Block.text "0123456789", Block.text ("aaaaaaaa" ++ truncHint)],
        true) ∧
    ("aaaaaaaa" ++ truncHint) ≠
      (pyTake "aaaaaaaaaaaaaaaaaaaaa" 17 ++ truncHint) ∧
    truncateGo 100 [Block.other "image", Block.text "hi"] =
      ([Block.text "hi"], false) ∧
    truncateGo 10 [Block.text "0123456789", Block.text ""] =
      ([Block.text "0123456789"], false) := by
  refine ⟨?_, ?_, ?_, ?_⟩ <;> decide

/-- C3 (amended): segments are processed against a remaining-budget
counter: non-text segments are always dropped; all-text content of total
length strictly below the configured budget passes through byte-identical
with no truncation; the first text segment exceeding the remaining budget
is replaced by its first `int(0.85 * remaining)` characters — 85% of the
*remaining* budget, which equals 85% of the configured budget only for
the first segment — with the marker appended, and all subsequent segments
are dropped. -/
theorem truncate_remaining_budget :
    (∀ (budget : Int) (tag : String) (rest : List Block),
      truncateGo budget (Block.other tag :: rest) =
        truncateGo budget rest) ∧
    (∀ (B : Int) (bs : List Block), bs.all isTextB = true →
      (sumTextLen bs : Int) < B → truncateGo B bs = (bs, false)) ∧
    (∀ (B : Int) (pre : List Block) (s : String) (rest : List Block),
      pre.all isTextB = true → (sumTextLen pre : Int) < B →
      (s.length : Int) > B - sumTextLen pre →
      truncateGo B (pre ++ Block.text s :: rest) =
        (pre ++ [Block.text (pyTake s
          (Int.tdiv (17 * (B - sumTextLen pre)) 20) ++ truncHint)], true)) :=
  ⟨fun _ _ _ => rfl, truncateGo_all_within, truncateGo_overflow⟩

/-- Witness for C3 (amended): the identity case and the overflow case at
concrete inputs and budget 10. -/
theorem truncate_remaining_budget_witness :
    truncateGo 10 [Block.text "ab", Block.text "cd"] =
      ([Block.text "ab", Block.text "cd"], false) ∧
    truncateGo 10 ([Block.text "ab"] ++ Block.text "0123456789" :: []) =
      ([Block.text "ab"] ++ [Block.text (pyTake "0123456789"
        (Int.tdiv (17 * ((10 : Int) - sumTextLen [Block.text "ab"])) 20) ++
        truncHint)], true) :=
  ⟨truncate_remaining_budget.2.1 10 [Block.text "ab", Block.text "cd"]
      (by decide) (by decide),
   truncate_remaining_budget.2.2 10 [Block.text "ab"] "0123456789" []
      (by decide) (by decide) (by decide)⟩
